import Mathlib

/-!
# Verification of `scripts/supervisor-watchdog.py`

A shallow embedding of the supervisor watchdog script.  The script is a
single-shot `main()` that

1. loads a JSON checkpoint (`_load_state`),
2. queries the activity of the `developer` and `qa` agents,
3. starts stopped agents,
4. nudges blocked/error agents under a 2h per-agent cooldown,
5. when the developer is idle and the backoff window has elapsed, runs an
   external work-discovery step and updates an exponential backoff,
6. unconditionally persists the state and prints a 2- or 3-line report,
7. returns exit code `0`.

External effects (current time, the stdout of the activity query, the result
of work discovery, and the strings returned by the start/send subprocesses)
are inputs collected in an `Env`.  The run is modelled as a pure function
`mainRun : Env → StateDict → RunResult` recording the saved state, the
ordered trace of external calls, the printed report and the exit code.

Machine integers: all timestamps and counters are Python `int`s
(arbitrary-precision), embedded as `Int`.  The exponent in the backoff
formula is embedded as `2 ^ k.toNat`; this agrees with Python's `2**k`
for every `k ≥ 0`, and the script only ever stores backoff steps in
`[0, 16]` (negative stored steps would make Python produce a float, which
is outside the integer model; theorems about the backoff therefore carry
the hypothesis `0 ≤ backoff_steps` where it matters).
-/

set_option autoImplicit false

/-- Constant `BASE_INTERVAL_SECONDS = 15 * 60` from the script. -/
def BASE_INTERVAL_SECONDS : Int := 15 * 60

/-- Constant `MAX_BACKOFF_SECONDS = 4 * 60 * 60` from the script. -/
def MAX_BACKOFF_SECONDS : Int := 4 * 60 * 60

/-- Constant `NUDGE_COOLDOWN_SECONDS = 2 * 60 * 60` from the script. -/
def NUDGE_COOLDOWN_SECONDS : Int := 2 * 60 * 60

/-- Constant `REPEAT_SAME_WORK_COOLDOWN_SECONDS = 60 * 60` from the script. -/
def REPEAT_SAME_WORK_COOLDOWN_SECONDS : Int := 60 * 60

/-- The `WorkItem` dataclass of the script. -/
structure WorkItem where
  repo_dir : String
  github_repo : String
  number : String
  url : String
  title : String
deriving Repr, DecidableEq

/-- The JSON state dictionary, restricted to the keys the script reads or
writes.  A field holds `none` when the key is missing from the JSON object
or holds JSON `null` (both are treated identically by the script's
`state.get(k) or default` reads). -/
structure StateDict where
  next_scan_ts : Option Int := none
  backoff_steps : Option Int := none
  last_nudge_developer_ts : Option Int := none
  last_nudge_qa_ts : Option Int := none
  last_work_url : Option String := none
  last_work_nudge_ts : Option Int := none
deriving Repr, DecidableEq

/-- Python `int(v or 0)` applied to a possibly-missing JSON value. -/
def intOr (v : Option Int) : Int := v.getD 0

/-- Python `str(v or "")` applied to a possibly-missing JSON value. -/
def strOr (v : Option String) : String := v.getD ""

/-- Read of the state key `last_nudge_<agent>_ts`: the script forms the key
dynamically, and only ever uses the agents `developer` and `qa`. -/
def getLastNudgeTs (s : StateDict) (agent : String) : Option Int :=
  if agent = "developer" then s.last_nudge_developer_ts
  else if agent = "qa" then s.last_nudge_qa_ts
  else none

/-- Write of the state key `last_nudge_<agent>_ts` for the two agents the script
uses. -/
def setLastNudgeTs (s : StateDict) (agent : String) (v : Int) : StateDict :=
  if agent = "developer" then { s with last_nudge_developer_ts := some v }
  else if agent = "qa" then { s with last_nudge_qa_ts := some v }
  else s

/-- The possible observations of the state file by `_load_state`:
`FileNotFoundError`, any other read exception, `json.loads` raising,
a successful parse that is not a dict, or a dict. -/
inductive StateFile where
  | absent
  | unreadable
  | malformedJson
  | nonObjectJson
  | objectJson (d : StateDict)
deriving Repr, DecidableEq

/-- Function `_load_state`: return the parsed dict when the file holds a JSON
object, and `{}` in every other case (the `except` clauses and the final
`return {}`). -/
def load_state : StateFile → StateDict
  | .absent => {}
  | .unreadable => {}
  | .malformedJson => {}
  | .nonObjectJson => {}
  | .objectJson d => d

/-- Python `line.split(":", 1)` on the character list, reporting `none`
when the line has no colon (the script's `if ":" not in line: continue`). -/
def splitCharsOnColon : List Char → Option (List Char × List Char)
  | [] => none
  | c :: cs =>
    if c = ':' then some ([], cs)
    else
      match splitCharsOnColon cs with
      | none => none
      | some (a, b) => some (c :: a, b)

/-- Python `s.strip()` on a character list. -/
def stripChars (cs : List Char) : List Char :=
  ((cs.dropWhile Char.isWhitespace).reverse.dropWhile Char.isWhitespace).reverse

/-- Python `s.strip()`. -/
def pyStrip (s : String) : String := ⟨stripChars s.data⟩

/-- Python `line.split(":", 1)` packaged on `String`. -/
def pySplit1Colon (s : String) : Option (String × String) :=
  (splitCharsOnColon s.data).map fun p => (⟨p.1⟩, ⟨p.2⟩)

/-- Function `_get_activity`: parse each stdout line `name: status` into a dict
entry (later lines overwrite earlier ones, which an ordered list with a
last-wins lookup reproduces); lines without a colon are skipped. -/
def get_activity (lines : List String) : List (String × String) :=
  lines.foldl
    (fun acc line =>
      match pySplit1Colon line with
      | none => acc
      | some (n, st) => acc ++ [(pyStrip n, pyStrip st)])
    []

/-- Python `d.get(k, dflt)` with dict (last-wins) semantics over the parsed
association list. -/
def dictGet (d : List (String × String)) (k dflt : String) : String :=
  (d.foldl (fun acc p => if p.1 = k then some p.2 else acc) none).getD dflt

/-- One external call made by a run, in order: agent start, message send,
work discovery, state save, printed line. -/
inductive Call where
  | start (agent : String)
  | send (agent : String) (message : String)
  | findWork
  | saveState (s : StateDict)
  | printLine (line : String)
deriving Repr, DecidableEq

/-- The environment of one run: the current time, the stdout lines of the
activity query, the result of `_find_work()`, and the strings the
start/send helpers return (last line of the subprocess output). -/
structure Env where
  now : Int
  activityLines : List String
  findWork : Option WorkItem
  startMsg : String → String
  sendMsg : String → String → String

/-- Lookup `activity.get(name, "unknown")` for a run. -/
def statusOf (env : Env) (name : String) : String :=
  dictGet (get_activity env.activityLines) name "unknown"

/-- Value `dev_status` of a run. -/
def devStatus (env : Env) : String := statusOf env "developer"

/-- Value `qa_status` of a run. -/
def qaStatus (env : Env) : String := statusOf env "qa"

/-- The fixed nudge message sent to blocked/error agents. -/
def nudgeMessage : String := "continue follow workflows/github_issues.md"

/-- The message sent to the developer when work is found. -/
def workMessage (w : WorkItem) : String :=
  "work found: " ++
    (w.url ++ (" (repo " ++ (w.github_repo ++ (", dir " ++ (w.repo_dir ++
      "). continue follow workflows/github_issues.md")))))

/-- One iteration of the `for agent, status in ...` start loop: start the
agent when its status is `stopped`, accumulating the returned action
string and the call trace. -/
def startStep (env : Env) (acc : List String × List Call) (p : String × String) :
    List String × List Call :=
  if p.2 = "stopped" then (acc.1 ++ [env.startMsg p.1], acc.2 ++ [Call.start p.1])
  else acc

/-- The start loop over `(("developer", dev_status), ("qa", qa_status))`. -/
def startPhase (env : Env) (dev qa : String) : List String × List Call :=
  [("developer", dev), ("qa", qa)].foldl (startStep env) ([], [])

/-- One iteration of the nudge loop: skip unless the status is `blocked`
or `error`, skip when the per-agent cooldown has not elapsed, otherwise
send the nudge and record the timestamp. -/
def nudgeStep (env : Env) (acc : StateDict × List String × List Call)
    (p : String × String) : StateDict × List String × List Call :=
  if p.2 = "blocked" ∨ p.2 = "error" then
    if env.now - intOr (getLastNudgeTs acc.1 p.1) < NUDGE_COOLDOWN_SECONDS then acc
    else
      (setLastNudgeTs acc.1 p.1 env.now,
       acc.2.1 ++ [env.sendMsg p.1 nudgeMessage],
       acc.2.2 ++ [Call.send p.1 nudgeMessage])
  else acc

/-- The nudge loop over `(("developer", dev_status), ("qa", qa_status))`. -/
def nudgePhase (env : Env) (state : StateDict) (dev qa : String) :
    StateDict × List String × List Call :=
  [("developer", dev), ("qa", qa)].foldl (nudgeStep env) (state, [], [])

/-- The backoff-controlled work scan.  `next_scan_ts` and `backoff_steps`
are the values read from the loaded state at the top of `main`;
`last_work_url` / `last_work_nudge_ts` are read from the current state as
in the script. -/
def scanPhase (env : Env) (st : StateDict) (dev : String)
    (next_scan_ts backoff_steps : Int) :
    StateDict × List String × List Call × Option WorkItem :=
  if dev = "idle" ∧ next_scan_ts ≤ env.now then
    match env.findWork with
    | none =>
      let backoff2 := min (backoff_steps + 1) 16
      let delay := min MAX_BACKOFF_SECONDS (BASE_INTERVAL_SECONDS * 2 ^ backoff2.toNat)
      ({ st with backoff_steps := some backoff2, next_scan_ts := some (env.now + delay) },
       [], [Call.findWork], none)
    | some w =>
      let last_work_url := strOr st.last_work_url
      let last_work_nudge_ts := intOr st.last_work_nudge_ts
      let st2 := { st with backoff_steps := some 0,
                           next_scan_ts := some (env.now + BASE_INTERVAL_SECONDS),
                           last_work_url := some w.url }
      if w.url ≠ last_work_url ∨
          REPEAT_SAME_WORK_COOLDOWN_SECONDS ≤ env.now - last_work_nudge_ts then
        ({ st2 with last_work_nudge_ts := some env.now },
         [env.sendMsg "developer" (workMessage w)],
         [Call.findWork, Call.send "developer" (workMessage w)], some w)
      else (st2, [], [Call.findWork], some w)
  else (st, [], [], none)

/-- Line `status developer=... qa=...` with ` next=<url>` appended when work
was found (`if work:` — a dataclass instance is truthy). -/
def statusLine (dev qa : String) (work : Option WorkItem) : String :=
  let s := "status developer=" ++ dev ++ " qa=" ++ qa
  match work with
  | some w => s ++ " next=" ++ w.url
  | none => s

/-- Line `action <a; b; ...>` or `action none`. -/
def actionLine (actions : List String) : String :=
  match actions with
  | [] => "action none"
  | _ => "action " ++ String.intercalate "; " actions

/-- Line `backoff next_scan_in=<s>s steps=<n>`, re-reading the saved state. -/
def backoffLine (st : StateDict) (now : Int) : String :=
  let seconds := max 0 (intOr st.next_scan_ts - now)
  "backoff next_scan_in=" ++ toString seconds ++ "s steps=" ++
    toString (intOr st.backoff_steps)

/-- The printed report: three lines when the developer is idle, two
otherwise. -/
def reportLines (dev qa : String) (work : Option WorkItem)
    (actions : List String) (st : StateDict) (now : Int) : List String :=
  if dev = "idle" then
    [statusLine dev qa work, actionLine actions, backoffLine st now]
  else
    [statusLine dev qa work, actionLine actions]

/-- The result of one run: the persisted state, the ordered call trace,
the printed report and `main`'s return value. -/
structure RunResult where
  saved : StateDict
  calls : List Call
  report : List String
  exitCode : Int

/-- The body of `main()` given the loaded state. -/
def mainRun (env : Env) (state : StateDict) : RunResult :=
  let dev := devStatus env
  let qa := qaStatus env
  let sp := startPhase env dev qa
  let np := nudgePhase env state dev qa
  let sc := scanPhase env np.1 dev (intOr state.next_scan_ts) (intOr state.backoff_steps)
  let actions := sp.1 ++ np.2.1 ++ sc.2.1
  let report := reportLines dev qa sc.2.2.2 actions sc.1 env.now
  { saved := sc.1
    calls := sp.2 ++ np.2.2 ++ sc.2.2.1 ++ [Call.saveState sc.1] ++ report.map Call.printLine
    report := report
    exitCode := 0 }

/-- The whole process: `main()` on the loaded state file; `__main__`
raises `SystemExit(main())`, so `main`'s return value is the process exit
code. -/
def watchdogProcess (env : Env) (file : StateFile) : RunResult :=
  mainRun env (load_state file)

/-- Iterated runs: the state persisted after running `main` once per
environment in the list, threading the saved state. -/
def runAll (s : StateDict) : List Env → StateDict
  | [] => s
  | e :: es => runAll (mainRun e s).saved es

/-- The condition under which the nudge loop fires for an agent. -/
abbrev nudgeFire (env : Env) (s : StateDict) (agent status : String) : Prop :=
  (status = "blocked" ∨ status = "error") ∧
    NUDGE_COOLDOWN_SECONDS ≤ env.now - intOr (getLastNudgeTs s agent)

/-- The bounds the watchdog maintains on the persisted backoff counter. -/
abbrev BackoffInv (s : StateDict) : Prop :=
  0 ≤ intOr s.backoff_steps ∧ intOr s.backoff_steps ≤ 16

/-- Whether a call is one of the effect calls made before persisting
(agent start, message send, work discovery). -/
def Call.isEffect : Call → Bool
  | .saveState _ => false
  | .printLine _ => false
  | _ => true

/-- A concrete environment builder used for witnesses: the start/send
helpers answer with their fallback strings. -/
def mkEnv (now : Int) (lines : List String) (fw : Option WorkItem) : Env :=
  { now := now, activityLines := lines, findWork := fw,
    startMsg := fun a => "started " ++ a,
    sendMsg := fun a _ => "sent to " ++ a }

/-- A concrete work item used for witnesses. -/
def wItemA : WorkItem :=
  { repo_dir := "repos/demo", github_repo := "acme/demo", number := "7",
    url := "https://github.com/acme/demo/issues/7", title := "demo issue" }

/-- Input of the backoff counterexample: developer idle, scan due, no
work found, persisted backoff already at the cap. -/
def envC1x : Env := mkEnv 1000000 ["developer: idle", "qa: idle"] none

/-- State of the backoff counterexample. -/
def sC1x : StateDict := { backoff_steps := some 16, next_scan_ts := some 0 }

/-- Witness input for the backoff update: no work found at step 2. -/
def envC1w : Env := mkEnv 5000 ["developer: idle"] none

/-- Witness state for the backoff update. -/
def sC1w : StateDict := { backoff_steps := some 2, next_scan_ts := some 100 }

/-- Witness input for the backoff reset: work found. -/
def envC1y : Env := mkEnv 5000 ["developer: idle"] (some wItemA)

/-- Witness input for the invariant preservation. -/
def envC2w : Env := mkEnv 900000 ["developer: idle"] none

/-- Witness input for the nudge cooldown: developer blocked at t=7200. -/
def envC3a : Env := mkEnv 7200 ["developer: blocked"] none

/-- Witness input for the nudge cooldown: developer blocked at t=14400. -/
def envC3b : Env := mkEnv 14400 ["developer: blocked"] none

/-- Witness input for the work notification. -/
def envC4w : Env := mkEnv 1000 ["developer: idle", "qa: busy"] (some wItemA)

/-- Witness input for starting stopped agents. -/
def envC5w : Env := mkEnv 0 ["developer: stopped", "qa: idle"] none

/-- Witness input for the scan gate frame: developer busy. -/
def envC6w : Env := mkEnv 0 ["developer: busy"] none

/-- Witness state for the scan gate frame. -/
def sC6w : StateDict :=
  { next_scan_ts := some 50, backoff_steps := some 3,
    last_work_url := some "https://github.com/acme/demo/issues/3",
    last_work_nudge_ts := some 7 }

/-- Witness input for unrecognized statuses: developer reports an
unrecognized status and qa has no activity line. -/
def envC10w : Env := mkEnv 0 ["developer: warming-up"] none

/-- Witness state for unrecognized statuses. -/
def sC10w : StateDict :=
  { last_nudge_developer_ts := some 42, last_nudge_qa_ts := some 43 }

/-! ## Structural lemmas about one run -/

theorem workMessage_ne_nudgeMessage (w : WorkItem) : workMessage w ≠ nudgeMessage := by
  intro h
  have h1 : (workMessage w).data.head? = nudgeMessage.data.head? :=
    congrArg (fun s => s.data.head?) h
  have h2 : (workMessage w).data.head? = some 'w' := rfl
  have h3 : nudgeMessage.data.head? = some 'c' := rfl
  rw [h2, h3] at h1
  exact absurd h1 (by decide)

theorem startPhase_eq (env : Env) (dev qa : String) :
    startPhase env dev qa =
      ((if dev = "stopped" then [env.startMsg "developer"] else []) ++
         (if qa = "stopped" then [env.startMsg "qa"] else []),
       (if dev = "stopped" then [Call.start "developer"] else []) ++
         (if qa = "stopped" then [Call.start "qa"] else [])) := by
  by_cases h1 : dev = "stopped" <;> by_cases h2 : qa = "stopped" <;>
    simp [startPhase, startStep, h1, h2]

theorem nudgePhase_eq (env : Env) (s : StateDict) (dev qa : String) :
    nudgePhase env s dev qa =
      ({ s with
          last_nudge_developer_ts :=
            if nudgeFire env s "developer" dev then some env.now
            else s.last_nudge_developer_ts,
          last_nudge_qa_ts :=
            if nudgeFire env s "qa" qa then some env.now else s.last_nudge_qa_ts },
       (if nudgeFire env s "developer" dev then [env.sendMsg "developer" nudgeMessage] else []) ++
         (if nudgeFire env s "qa" qa then [env.sendMsg "qa" nudgeMessage] else []),
       (if nudgeFire env s "developer" dev then [Call.send "developer" nudgeMessage] else []) ++
         (if nudgeFire env s "qa" qa then [Call.send "qa" nudgeMessage] else [])) := by
  show nudgeStep env (nudgeStep env (s, [], []) ("developer", dev)) ("qa", qa) = _
  by_cases hd : dev = "blocked" ∨ dev = "error" <;>
    by_cases hq : qa = "blocked" ∨ qa = "error" <;>
      by_cases hdc : NUDGE_COOLDOWN_SECONDS ≤ env.now - intOr s.last_nudge_developer_ts <;>
        by_cases hqc : NUDGE_COOLDOWN_SECONDS ≤ env.now - intOr s.last_nudge_qa_ts <;>
          simp [nudgeStep, nudgeFire, getLastNudgeTs, setLastNudgeTs, lt_iff_not_le,
            hd, hq, hdc, hqc]

theorem scanPhase_skip (env : Env) (st : StateDict) (dev : String) (nst b : Int)
    (h : ¬(dev = "idle" ∧ nst ≤ env.now)) :
    scanPhase env st dev nst b = (st, [], [], none) := by
  simp [scanPhase, h]

theorem scanPhase_noWork (env : Env) (st : StateDict) (dev : String) (nst b : Int)
    (h : dev = "idle" ∧ nst ≤ env.now) (hf : env.findWork = none) :
    scanPhase env st dev nst b =
      ({ st with
          backoff_steps := some (min (b + 1) 16),
          next_scan_ts := some (env.now +
            min MAX_BACKOFF_SECONDS (BASE_INTERVAL_SECONDS * 2 ^ (min (b + 1) 16).toNat)) },
       [], [Call.findWork], none) := by
  simp [scanPhase, h, hf]

theorem scanPhase_workNotify (env : Env) (st : StateDict) (dev : String) (nst b : Int)
    (w : WorkItem) (h : dev = "idle" ∧ nst ≤ env.now) (hf : env.findWork = some w)
    (hn : w.url ≠ strOr st.last_work_url ∨
      REPEAT_SAME_WORK_COOLDOWN_SECONDS ≤ env.now - intOr st.last_work_nudge_ts) :
    scanPhase env st dev nst b =
      ({ st with
          backoff_steps := some 0,
          next_scan_ts := some (env.now + BASE_INTERVAL_SECONDS),
          last_work_url := some w.url,
          last_work_nudge_ts := some env.now },
       [env.sendMsg "developer" (workMessage w)],
       [Call.findWork, Call.send "developer" (workMessage w)], some w) := by
  simp [scanPhase, h, hf, hn]

theorem scanPhase_workSkip (env : Env) (st : StateDict) (dev : String) (nst b : Int)
    (w : WorkItem) (h : dev = "idle" ∧ nst ≤ env.now) (hf : env.findWork = some w)
    (hn : ¬(w.url ≠ strOr st.last_work_url ∨
      REPEAT_SAME_WORK_COOLDOWN_SECONDS ≤ env.now - intOr st.last_work_nudge_ts)) :
    scanPhase env st dev nst b =
      ({ st with
          backoff_steps := some 0,
          next_scan_ts := some (env.now + BASE_INTERVAL_SECONDS),
          last_work_url := some w.url },
       [], [Call.findWork], some w) := by
  simp only [scanPhase, h, hf, and_self, if_true]
  rw [if_neg hn]

theorem mainRun_saved (env : Env) (s : StateDict) :
    (mainRun env s).saved =
      (scanPhase env (nudgePhase env s (devStatus env) (qaStatus env)).1 (devStatus env)
        (intOr s.next_scan_ts) (intOr s.backoff_steps)).1 := rfl

theorem mainRun_calls (env : Env) (s : StateDict) :
    (mainRun env s).calls =
      (startPhase env (devStatus env) (qaStatus env)).2 ++
        (nudgePhase env s (devStatus env) (qaStatus env)).2.2 ++
        (scanPhase env (nudgePhase env s (devStatus env) (qaStatus env)).1 (devStatus env)
          (intOr s.next_scan_ts) (intOr s.backoff_steps)).2.2.1 ++
        [Call.saveState (mainRun env s).saved] ++
        (mainRun env s).report.map Call.printLine := rfl

theorem mainRun_report (env : Env) (s : StateDict) :
    (mainRun env s).report =
      reportLines (devStatus env) (qaStatus env)
        (scanPhase env (nudgePhase env s (devStatus env) (qaStatus env)).1 (devStatus env)
          (intOr s.next_scan_ts) (intOr s.backoff_steps)).2.2.2
        ((startPhase env (devStatus env) (qaStatus env)).1 ++
          (nudgePhase env s (devStatus env) (qaStatus env)).2.1 ++
          (scanPhase env (nudgePhase env s (devStatus env) (qaStatus env)).1 (devStatus env)
            (intOr s.next_scan_ts) (intOr s.backoff_steps)).2.1)
        (mainRun env s).saved env.now := rfl
theorem mem_startPhase_calls (env : Env) (dev qa : String) (c : Call) :
    c ∈ (startPhase env dev qa).2 ↔
      (c = Call.start "developer" ∧ dev = "stopped") ∨
        (c = Call.start "qa" ∧ qa = "stopped") := by
  rw [startPhase_eq]
  by_cases h1 : dev = "stopped" <;> by_cases h2 : qa = "stopped" <;> simp [h1, h2]

theorem mem_nudgePhase_calls (env : Env) (s : StateDict) (dev qa : String) (c : Call) :
    c ∈ (nudgePhase env s dev qa).2.2 ↔
      (nudgeFire env s "developer" dev ∧ c = Call.send "developer" nudgeMessage) ∨
        (nudgeFire env s "qa" qa ∧ c = Call.send "qa" nudgeMessage) := by
  rw [nudgePhase_eq]
  by_cases hd : nudgeFire env s "developer" dev <;>
    by_cases hq : nudgeFire env s "qa" qa <;> simp [hd, hq]

theorem mem_scanPhase_calls (env : Env) (st : StateDict) (dev : String) (nst b : Int)
    (c : Call) (hc : c ∈ (scanPhase env st dev nst b).2.2.1) :
    c = Call.findWork ∨
      ∃ w, env.findWork = some w ∧ c = Call.send "developer" (workMessage w) := by
  by_cases h : dev = "idle" ∧ nst ≤ env.now
  · cases hf : env.findWork with
    | none => rw [scanPhase_noWork env st dev nst b h hf] at hc; simp at hc; simp [hc]
    | some w =>
      by_cases hn : w.url ≠ strOr st.last_work_url ∨
          REPEAT_SAME_WORK_COOLDOWN_SECONDS ≤ env.now - intOr st.last_work_nudge_ts
      · rw [scanPhase_workNotify env st dev nst b w h hf hn] at hc
        simp at hc
        rcases hc with hc | hc
        · simp [hc]
        · exact Or.inr ⟨w, rfl, hc⟩
      · rw [scanPhase_workSkip env st dev nst b w h hf hn] at hc
        simp at hc; simp [hc]
  · rw [scanPhase_skip env st dev nst b h] at hc
    simp at hc
theorem findWork_mem_scanPhase (env : Env) (st : StateDict) (dev : String) (nst b : Int) :
    Call.findWork ∈ (scanPhase env st dev nst b).2.2.1 ↔ (dev = "idle" ∧ nst ≤ env.now) := by
  by_cases h : dev = "idle" ∧ nst ≤ env.now
  · cases hf : env.findWork with
    | none => rw [scanPhase_noWork env st dev nst b h hf]; simp [h]
    | some w =>
      by_cases hn : w.url ≠ strOr st.last_work_url ∨
          REPEAT_SAME_WORK_COOLDOWN_SECONDS ≤ env.now - intOr st.last_work_nudge_ts
      · rw [scanPhase_workNotify env st dev nst b w h hf hn]; simp [h]
      · rw [scanPhase_workSkip env st dev nst b w h hf hn]; simp [h]
  · rw [scanPhase_skip env st dev nst b h]; simp [h]

theorem scanPhase_preserves_nudge_ts (env : Env) (st : StateDict) (dev : String)
    (nst b : Int) :
    (scanPhase env st dev nst b).1.last_nudge_developer_ts = st.last_nudge_developer_ts ∧
      (scanPhase env st dev nst b).1.last_nudge_qa_ts = st.last_nudge_qa_ts := by
  by_cases h : dev = "idle" ∧ nst ≤ env.now
  · cases hf : env.findWork with
    | none => rw [scanPhase_noWork env st dev nst b h hf]; exact ⟨rfl, rfl⟩
    | some w =>
      by_cases hn : w.url ≠ strOr st.last_work_url ∨
          REPEAT_SAME_WORK_COOLDOWN_SECONDS ≤ env.now - intOr st.last_work_nudge_ts
      · rw [scanPhase_workNotify env st dev nst b w h hf hn]; exact ⟨rfl, rfl⟩
      · rw [scanPhase_workSkip env st dev nst b w h hf hn]; exact ⟨rfl, rfl⟩
  · rw [scanPhase_skip env st dev nst b h]; exact ⟨rfl, rfl⟩
theorem nudgePhase_preserves_scan_fields (env : Env) (s : StateDict) (dev qa : String) :
    (nudgePhase env s dev qa).1.backoff_steps = s.backoff_steps ∧
      (nudgePhase env s dev qa).1.next_scan_ts = s.next_scan_ts ∧
      (nudgePhase env s dev qa).1.last_work_url = s.last_work_url ∧
      (nudgePhase env s dev qa).1.last_work_nudge_ts = s.last_work_nudge_ts := by
  rw [nudgePhase_eq]
  exact ⟨rfl, rfl, rfl, rfl⟩

theorem mainRun_saved_nudge_ts (env : Env) (s : StateDict) :
    (mainRun env s).saved.last_nudge_developer_ts =
      (if nudgeFire env s "developer" (devStatus env) then some env.now
       else s.last_nudge_developer_ts) ∧
    (mainRun env s).saved.last_nudge_qa_ts =
      (if nudgeFire env s "qa" (qaStatus env) then some env.now
       else s.last_nudge_qa_ts) := by
  have h1 := scanPhase_preserves_nudge_ts env
    (nudgePhase env s (devStatus env) (qaStatus env)).1 (devStatus env)
    (intOr s.next_scan_ts) (intOr s.backoff_steps)
  rw [mainRun_saved, h1.1, h1.2, nudgePhase_eq]
  exact ⟨rfl, rfl⟩

theorem send_nudge_mem (env : Env) (s : StateDict) (a : String) :
    Call.send a nudgeMessage ∈ (mainRun env s).calls ↔
      (a = "developer" ∧ nudgeFire env s "developer" (devStatus env)) ∨
        (a = "qa" ∧ nudgeFire env s "qa" (qaStatus env)) := by
  rw [mainRun_calls]
  simp only [List.mem_append, List.mem_singleton, List.mem_map]
  constructor
  · rintro ((((h | h) | h) | h) | h)
    · rw [mem_startPhase_calls] at h
      rcases h with ⟨h, _⟩ | ⟨h, _⟩ <;> exact absurd h (by simp)
    · rw [mem_nudgePhase_calls] at h
      rcases h with ⟨hf, hc⟩ | ⟨hf, hc⟩
      · simp only [Call.send.injEq] at hc
        exact Or.inl ⟨hc.1, hf⟩
      · simp only [Call.send.injEq] at hc
        exact Or.inr ⟨hc.1, hf⟩
    · rcases mem_scanPhase_calls env _ _ _ _ _ h with h | ⟨w, _, h⟩
      · exact absurd h (by simp)
      · simp only [Call.send.injEq] at h
        exact absurd h.2 (fun hm => workMessage_ne_nudgeMessage w hm.symm)
    · exact absurd h (by simp)
    · rcases h with ⟨l, _, hl⟩
      exact absurd hl (by simp)
  · rintro (⟨ha, hf⟩ | ⟨ha, hf⟩)
    · refine Or.inl (Or.inl (Or.inl (Or.inr ?_)))
      rw [mem_nudgePhase_calls]
      exact Or.inl ⟨hf, by rw [ha]⟩
    · refine Or.inl (Or.inl (Or.inl (Or.inr ?_)))
      rw [mem_nudgePhase_calls]
      exact Or.inr ⟨hf, by rw [ha]⟩
theorem nudge_fire_ts_le (env : Env) (s : StateDict) (a status : String)
    (h : nudgeFire env s a status) :
    intOr (getLastNudgeTs s a) ≤ env.now := by
  have := h.2
  have hc : (0 : Int) < NUDGE_COOLDOWN_SECONDS := by decide
  omega

theorem nudge_ts_mono_run (env : Env) (s : StateDict) (a : String) :
    intOr (getLastNudgeTs s a) ≤ intOr (getLastNudgeTs (mainRun env s).saved a) := by
  have h := mainRun_saved_nudge_ts env s
  by_cases ha : a = "developer"
  · subst ha
    show intOr s.last_nudge_developer_ts ≤ intOr (mainRun env s).saved.last_nudge_developer_ts
    rw [h.1]
    by_cases hf : nudgeFire env s "developer" (devStatus env)
    · rw [if_pos hf]
      exact nudge_fire_ts_le env s "developer" (devStatus env) hf
    · rw [if_neg hf]
  · by_cases hb : a = "qa"
    · subst hb
      show intOr s.last_nudge_qa_ts ≤ intOr (mainRun env s).saved.last_nudge_qa_ts
      rw [h.2]
      by_cases hf : nudgeFire env s "qa" (qaStatus env)
      · rw [if_pos hf]
        exact nudge_fire_ts_le env s "qa" (qaStatus env) hf
      · rw [if_neg hf]
    · simp [getLastNudgeTs, ha, hb]

theorem nudge_ts_mono_runAll (a : String) :
    ∀ (es : List Env) (s : StateDict),
      intOr (getLastNudgeTs s a) ≤ intOr (getLastNudgeTs (runAll s es) a)
  | [], _ => le_refl _
  | e :: es, s =>
    le_trans (nudge_ts_mono_run e s a) (nudge_ts_mono_runAll a es (mainRun e s).saved)

theorem nudged_cooldown_and_stamp (env : Env) (s : StateDict) (a : String)
    (h : Call.send a nudgeMessage ∈ (mainRun env s).calls) :
    NUDGE_COOLDOWN_SECONDS ≤ env.now - intOr (getLastNudgeTs s a) ∧
      getLastNudgeTs (mainRun env s).saved a = some env.now := by
  rw [send_nudge_mem] at h
  have hsaved := mainRun_saved_nudge_ts env s
  rcases h with ⟨ha, hf⟩ | ⟨ha, hf⟩
  · subst ha
    refine ⟨hf.2, ?_⟩
    show (mainRun env s).saved.last_nudge_developer_ts = some env.now
    rw [hsaved.1, if_pos hf]
  · subst ha
    refine ⟨hf.2, ?_⟩
    show (mainRun env s).saved.last_nudge_qa_ts = some env.now
    rw [hsaved.2, if_pos hf]

theorem foldl_lookup_none {k : String} :
    ∀ (d : List (String × String)), (∀ p ∈ d, p.1 ≠ k) →
      d.foldl (fun acc p => if p.1 = k then some p.2 else acc)
        (none : Option String) = none
  | [], _ => rfl
  | p :: t, h => by
    have hp : p.1 ≠ k := h p (List.mem_cons_self p t)
    simp only [List.foldl_cons, if_neg hp]
    exact foldl_lookup_none t (fun q hq => h q (List.mem_cons_of_mem p hq))

theorem dictGet_default (d : List (String × String)) (k dflt : String)
    (h : ∀ p ∈ d, p.1 ≠ k) : dictGet d k dflt = dflt := by
  unfold dictGet
  rw [foldl_lookup_none d h]
  rfl
theorem findWork_mem_mainRun (env : Env) (s : StateDict) :
    Call.findWork ∈ (mainRun env s).calls ↔
      (devStatus env = "idle" ∧ intOr s.next_scan_ts ≤ env.now) := by
  rw [mainRun_calls]
  simp only [List.mem_append, List.mem_singleton, List.mem_map]
  constructor
  · rintro ((((h | h) | h) | h) | h)
    · rw [mem_startPhase_calls] at h
      rcases h with ⟨hc, _⟩ | ⟨hc, _⟩ <;> exact absurd hc (by simp)
    · rw [mem_nudgePhase_calls] at h
      rcases h with ⟨_, hc⟩ | ⟨_, hc⟩ <;> exact absurd hc (by simp)
    · exact (findWork_mem_scanPhase env _ _ _ _).mp h
    · exact absurd h (by simp)
    · rcases h with ⟨l, _, hl⟩
      exact absurd hl (by simp)
  · intro hcond
    exact Or.inl (Or.inl (Or.inr ((findWork_mem_scanPhase env _ _ _ _).mpr hcond)))

theorem start_mem_mainRun (env : Env) (s : StateDict) (a : String)
    (ha : a = "developer" ∨ a = "qa") :
    Call.start a ∈ (mainRun env s).calls ↔ statusOf env a = "stopped" := by
  rw [mainRun_calls]
  simp only [List.mem_append, List.mem_singleton, List.mem_map]
  constructor
  · rintro ((((h | h) | h) | h) | h)
    · rw [mem_startPhase_calls] at h
      rcases h with ⟨hc, hs⟩ | ⟨hc, hs⟩ <;>
        (simp only [Call.start.injEq] at hc; subst hc; exact hs)
    · rw [mem_nudgePhase_calls] at h
      rcases h with ⟨_, hc⟩ | ⟨_, hc⟩ <;> exact absurd hc (by simp)
    · rcases mem_scanPhase_calls env _ _ _ _ _ h with h | ⟨w, _, h⟩ <;>
        exact absurd h (by simp)
    · exact absurd h (by simp)
    · rcases h with ⟨l, _, hl⟩
      exact absurd hl (by simp)
  · intro hs
    refine Or.inl (Or.inl (Or.inl (Or.inl ?_)))
    rw [mem_startPhase_calls]
    rcases ha with ha | ha <;> subst ha
    · exact Or.inl ⟨rfl, hs⟩
    · exact Or.inr ⟨rfl, hs⟩

/-- C8: every completed watchdog run exits with code 0, for every
environment (any combination of agent statuses, including `error` and
`blocked`, and any work-discovery outcome) and every state-file content:
`main` always reaches its final `return 0`. -/
theorem watchdog_exit_zero (env : Env) (file : StateFile) :
    (watchdogProcess env file).exitCode = 0 := rfl

/-- C9: `_load_state` returns the empty dict for an absent, unreadable,
malformed-JSON or non-object state file (never raising), and on the empty
dict every field the run reads defaults to `0` or the empty string, so a
corrupted checkpoint never prevents a run. -/
theorem watchdog_load_state_defaults :
    (load_state .absent = ({} : StateDict) ∧
     load_state .unreadable = ({} : StateDict) ∧
     load_state .malformedJson = ({} : StateDict) ∧
     load_state .nonObjectJson = ({} : StateDict) ∧
     ∀ d, load_state (.objectJson d) = d) ∧
    (intOr ({} : StateDict).next_scan_ts = 0 ∧
     intOr ({} : StateDict).backoff_steps = 0 ∧
     (∀ a, intOr (getLastNudgeTs ({} : StateDict) a) = 0) ∧
     strOr ({} : StateDict).last_work_url = "" ∧
     intOr ({} : StateDict).last_work_nudge_ts = 0) := by
  refine ⟨⟨rfl, rfl, rfl, rfl, fun d => rfl⟩, rfl, rfl, fun a => ?_, rfl, rfl⟩
  unfold getLastNudgeTs
  split_ifs <;> rfl

/-- C5: a run invokes the start operation for `developer` or `qa` exactly
when that agent's reported status is `stopped`. -/
theorem watchdog_start_iff_stopped (env : Env) (s : StateDict) (a : String)
    (ha : a = "developer" ∨ a = "qa") :
    Call.start a ∈ (mainRun env s).calls ↔ statusOf env a = "stopped" :=
  start_mem_mainRun env s a ha

/-- Witness for C5: with `developer: stopped` and `qa: idle` the run
starts the developer and only the developer. -/
theorem watchdog_start_iff_stopped_witness :
    (("developer" : String) = "developer" ∨ ("developer" : String) = "qa") ∧
      Call.start "developer" ∈ (mainRun envC5w ({} : StateDict)).calls ∧
      Call.start "qa" ∉ (mainRun envC5w ({} : StateDict)).calls :=
  ⟨Or.inl rfl,
   (watchdog_start_iff_stopped envC5w {} "developer" (Or.inl rfl)).mpr (by decide),
   fun h =>
     absurd ((watchdog_start_iff_stopped envC5w {} "qa" (Or.inr rfl)).mp h) (by decide)⟩

/-- C6: a run invokes work discovery exactly when the developer reports
`idle` and the current time is at or past the persisted `next_scan_ts`;
when that gate fails, `backoff_steps`, `next_scan_ts`, `last_work_url` and
`last_work_nudge_ts` are written back unchanged from the loaded state. -/
theorem watchdog_scan_gate_frame (env : Env) (s : StateDict) :
    (Call.findWork ∈ (mainRun env s).calls ↔
      (devStatus env = "idle" ∧ intOr s.next_scan_ts ≤ env.now)) ∧
    (¬(devStatus env = "idle" ∧ intOr s.next_scan_ts ≤ env.now) →
      (mainRun env s).saved.backoff_steps = s.backoff_steps ∧
        (mainRun env s).saved.next_scan_ts = s.next_scan_ts ∧
        (mainRun env s).saved.last_work_url = s.last_work_url ∧
        (mainRun env s).saved.last_work_nudge_ts = s.last_work_nudge_ts) := by
  refine ⟨findWork_mem_mainRun env s, fun hcond => ?_⟩
  rw [mainRun_saved, scanPhase_skip env _ _ _ _ hcond]
  exact nudgePhase_preserves_scan_fields env s (devStatus env) (qaStatus env)

/-- Witness for C6: a busy developer leaves the scan state untouched. -/
theorem watchdog_scan_gate_frame_witness :
    ¬(devStatus envC6w = "idle" ∧ intOr sC6w.next_scan_ts ≤ envC6w.now) ∧
      (mainRun envC6w sC6w).saved.backoff_steps = sC6w.backoff_steps ∧
      (mainRun envC6w sC6w).saved.next_scan_ts = sC6w.next_scan_ts ∧
      (mainRun envC6w sC6w).saved.last_work_url = sC6w.last_work_url ∧
      (mainRun envC6w sC6w).saved.last_work_nudge_ts = sC6w.last_work_nudge_ts :=
  ⟨by decide, (watchdog_scan_gate_frame envC6w sC6w).2 (by decide)⟩
/-- Counterexample for C1: with the loaded `backoff_steps` already at 16,
a no-work scan does not increment the counter (the code caps it at 16,
`min(backoff_steps + 1, 16)`), contradicting the claim's unconditional
"increments backoff_steps". -/
theorem watchdog_backoff_increment_cex :
    (mainRun envC1x sC1x).saved.backoff_steps = some 16 ∧
      ¬((mainRun envC1x sC1x).saved.backoff_steps = some (intOr sC1x.backoff_steps + 1)) := by
  constructor <;> decide

/-- C1 (amended): in a run with the developer idle and the scan due, a
no-work scan sets `backoff_steps` to `min(backoff_steps + 1, 16)` and
`next_scan_ts` to `now + min(4h, 15min * 2^new_steps)` (so consecutive
no-work scans double the wait up to the 4h cap), and a work-found scan
resets `backoff_steps` to 0 and sets `next_scan_ts = now + 15min`.  The
hypothesis `0 ≤ backoff_steps` marks the integer domain on which the
embedding's `2 ^ (·).toNat` agrees with Python's `2**·`. -/
theorem watchdog_scan_backoff_update (env : Env) (s : StateDict)
    (hidle : devStatus env = "idle") (hdue : intOr s.next_scan_ts ≤ env.now)
    (_hb : 0 ≤ intOr s.backoff_steps) :
    (env.findWork = none →
      (mainRun env s).saved.backoff_steps = some (min (intOr s.backoff_steps + 1) 16) ∧
      (mainRun env s).saved.next_scan_ts = some (env.now +
        min MAX_BACKOFF_SECONDS
          (BASE_INTERVAL_SECONDS * 2 ^ (min (intOr s.backoff_steps + 1) 16).toNat))) ∧
    (∀ w, env.findWork = some w →
      (mainRun env s).saved.backoff_steps = some 0 ∧
      (mainRun env s).saved.next_scan_ts = some (env.now + BASE_INTERVAL_SECONDS)) := by
  constructor
  · intro hf
    rw [mainRun_saved, scanPhase_noWork env _ _ _ _ ⟨hidle, hdue⟩ hf]
    exact ⟨rfl, rfl⟩
  · intro w hf
    by_cases hn : w.url ≠ strOr (nudgePhase env s (devStatus env) (qaStatus env)).1.last_work_url ∨
        REPEAT_SAME_WORK_COOLDOWN_SECONDS ≤
          env.now - intOr (nudgePhase env s (devStatus env) (qaStatus env)).1.last_work_nudge_ts
    · rw [mainRun_saved, scanPhase_workNotify env _ _ _ _ w ⟨hidle, hdue⟩ hf hn]
      exact ⟨rfl, rfl⟩
    · rw [mainRun_saved, scanPhase_workSkip env _ _ _ _ w ⟨hidle, hdue⟩ hf hn]
      exact ⟨rfl, rfl⟩

/-- Witness for the amended C1: a no-work scan at step 2 moves to step 3
and schedules the scan 2h (15min * 2^3) ahead; a work-found scan resets
to step 0 and schedules 15min ahead. -/
theorem watchdog_scan_backoff_update_witness :
    devStatus envC1w = "idle" ∧ 0 ≤ intOr sC1w.backoff_steps ∧
      (mainRun envC1w sC1w).saved.backoff_steps = some 3 ∧
      (mainRun envC1w sC1w).saved.next_scan_ts = some 12200 ∧
      (mainRun envC1y ({} : StateDict)).saved.backoff_steps = some 0 ∧
      (mainRun envC1y ({} : StateDict)).saved.next_scan_ts = some 5900 := by
  have h1 := (watchdog_scan_backoff_update envC1w sC1w (by decide) (by decide) (by decide)).1 rfl
  have h2 := (watchdog_scan_backoff_update envC1y {} (by decide) (by decide) (by decide)).2 wItemA rfl
  exact ⟨by decide, by decide, h1.1.trans (by decide), h1.2.trans (by decide),
    h2.1, h2.2.trans (by decide)⟩

/-- C2: the empty state satisfies the backoff bounds, every run preserves
`0 ≤ backoff_steps ≤ 16`, and whenever a run performs a work scan the
scheduled delay `next_scan_ts - now` is at most 4 hours. -/
theorem watchdog_backoff_invariant :
    BackoffInv ({} : StateDict) ∧
      ∀ (env : Env) (s : StateDict), BackoffInv s →
        BackoffInv (mainRun env s).saved ∧
          (Call.findWork ∈ (mainRun env s).calls →
            intOr (mainRun env s).saved.next_scan_ts - env.now ≤ MAX_BACKOFF_SECONDS) := by
  refine ⟨by decide, ?_⟩
  intro env s hs
  by_cases hcond : devStatus env = "idle" ∧ intOr s.next_scan_ts ≤ env.now
  · cases hf : env.findWork with
    | none =>
      rw [mainRun_saved, scanPhase_noWork env _ _ _ _ hcond hf]
      refine ⟨⟨?_, ?_⟩, fun _ => ?_⟩
      · show (0 : Int) ≤ intOr (some (min (intOr s.backoff_steps + 1) 16))
        have h1 := hs.1
        simp only [intOr, Option.getD] at h1 ⊢
        exact le_min (by omega) (by norm_num)
      · show intOr (some (min (intOr s.backoff_steps + 1) 16)) ≤ 16
        simp only [intOr, Option.getD]
        exact min_le_right _ _
      · show intOr (some (env.now + min MAX_BACKOFF_SECONDS
          (BASE_INTERVAL_SECONDS * 2 ^ (min (intOr s.backoff_steps + 1) 16).toNat))) -
            env.now ≤ MAX_BACKOFF_SECONDS
        simp only [intOr, Option.getD]
        have := min_le_left MAX_BACKOFF_SECONDS
          (BASE_INTERVAL_SECONDS * 2 ^ (min (intOr s.backoff_steps + 1) 16).toNat)
        omega
    | some w =>
      have harith : env.now + BASE_INTERVAL_SECONDS - env.now ≤ MAX_BACKOFF_SECONDS := by
        simp only [BASE_INTERVAL_SECONDS, MAX_BACKOFF_SECONDS]
        omega
      by_cases hn : w.url ≠ strOr (nudgePhase env s (devStatus env) (qaStatus env)).1.last_work_url ∨
          REPEAT_SAME_WORK_COOLDOWN_SECONDS ≤
            env.now - intOr (nudgePhase env s (devStatus env) (qaStatus env)).1.last_work_nudge_ts
      · rw [mainRun_saved, scanPhase_workNotify env _ _ _ _ w hcond hf hn]
        exact ⟨⟨by norm_num [intOr], by norm_num [intOr]⟩, fun _ => by simpa [intOr] using harith⟩
      · rw [mainRun_saved, scanPhase_workSkip env _ _ _ _ w hcond hf hn]
        exact ⟨⟨by norm_num [intOr], by norm_num [intOr]⟩, fun _ => by simpa [intOr] using harith⟩
  · constructor
    · rw [mainRun_saved, scanPhase_skip env _ _ _ _ hcond]
      have hp := (nudgePhase_preserves_scan_fields env s (devStatus env) (qaStatus env)).1
      constructor
      · show (0 : Int) ≤ intOr (nudgePhase env s (devStatus env) (qaStatus env)).1.backoff_steps
        rw [hp]; exact hs.1
      · show intOr (nudgePhase env s (devStatus env) (qaStatus env)).1.backoff_steps ≤ 16
        rw [hp]; exact hs.2
    · intro hmem
      exact absurd ((findWork_mem_mainRun env s).mp hmem) hcond

/-- Witness for C2: a run on the empty state keeps the bounds and, since
it scans, schedules at most 4h ahead. -/
theorem watchdog_backoff_invariant_witness :
    BackoffInv ({} : StateDict) ∧
      BackoffInv (mainRun envC2w ({} : StateDict)).saved ∧
      (intOr (mainRun envC2w ({} : StateDict)).saved.next_scan_ts - envC2w.now ≤
        MAX_BACKOFF_SECONDS) := by
  have h := watchdog_backoff_invariant.2 envC2w {} (by decide)
  exact ⟨by decide, h.1, h.2 (by decide)⟩
/-- C3: (i) in a run where an agent (`developer` or `qa`) reports
`blocked` or `error`, the `continue` nudge is sent to it iff at least 2h
have elapsed since the agent's persisted last-nudge timestamp, and the
persisted timestamp becomes `now` exactly when the nudge is sent;
(ii) across any sequence of runs, whenever the same agent is nudged in
two runs, the times of those runs are at least 2h apart. -/
theorem watchdog_nudge_cooldown :
    (∀ (env : Env) (s : StateDict) (a : String),
        (a = "developer" ∨ a = "qa") →
        (statusOf env a = "blocked" ∨ statusOf env a = "error") →
        ((Call.send a nudgeMessage ∈ (mainRun env s).calls ↔
            NUDGE_COOLDOWN_SECONDS ≤ env.now - intOr (getLastNudgeTs s a)) ∧
          getLastNudgeTs (mainRun env s).saved a =
            (if NUDGE_COOLDOWN_SECONDS ≤ env.now - intOr (getLastNudgeTs s a)
             then some env.now else getLastNudgeTs s a))) ∧
    (∀ (s : StateDict) (es1 : List Env) (e1 : Env) (es2 : List Env) (e2 : Env)
        (a : String),
        Call.send a nudgeMessage ∈ (mainRun e1 (runAll s es1)).calls →
        Call.send a nudgeMessage ∈
          (mainRun e2 (runAll (mainRun e1 (runAll s es1)).saved es2)).calls →
        NUDGE_COOLDOWN_SECONDS ≤ e2.now - e1.now) := by
  constructor
  · intro env s a ha hstat
    constructor
    · rw [send_nudge_mem]
      rcases ha with ha | ha <;> subst ha
      · constructor
        · rintro (⟨_, hf⟩ | ⟨hq, _⟩)
          · exact hf.2
          · exact absurd hq (by decide)
        · intro hc
          exact Or.inl ⟨rfl, hstat, hc⟩
      · constructor
        · rintro (⟨hq, _⟩ | ⟨_, hf⟩)
          · exact absurd hq (by decide)
          · exact hf.2
        · intro hc
          exact Or.inr ⟨rfl, hstat, hc⟩
    · rcases ha with ha | ha <;> subst ha
      · have h := (mainRun_saved_nudge_ts env s).1
        show (mainRun env s).saved.last_nudge_developer_ts = _
        rw [h]
        by_cases hc : NUDGE_COOLDOWN_SECONDS ≤ env.now - intOr (getLastNudgeTs s "developer")
        · rw [if_pos ⟨hstat, hc⟩, if_pos hc]
        · rw [if_neg (fun hf => hc hf.2), if_neg hc]
          rfl
      · have h := (mainRun_saved_nudge_ts env s).2
        show (mainRun env s).saved.last_nudge_qa_ts = _
        rw [h]
        by_cases hc : NUDGE_COOLDOWN_SECONDS ≤ env.now - intOr (getLastNudgeTs s "qa")
        · rw [if_pos ⟨hstat, hc⟩, if_pos hc]
        · rw [if_neg (fun hf => hc hf.2), if_neg hc]
          rfl
  · intro s es1 e1 es2 e2 a h1 h2
    have c1 := nudged_cooldown_and_stamp e1 (runAll s es1) a h1
    have c2 := nudged_cooldown_and_stamp e2 (runAll (mainRun e1 (runAll s es1)).saved es2) a h2
    have hmono := nudge_ts_mono_runAll a es2 (mainRun e1 (runAll s es1)).saved
    rw [c1.2] at hmono
    have hm : e1.now ≤ intOr (getLastNudgeTs
        (runAll (mainRun e1 (runAll s es1)).saved es2) a) := by
      simpa [intOr] using hmono
    have := c2.1
    omega

/-- Witness for C3: the developer, blocked with no recorded nudge, is
nudged at t=7200; nudged again at t=14400, the two nudges are exactly the
2h cooldown apart. -/
theorem watchdog_nudge_cooldown_witness :
    (statusOf envC3a "developer" = "blocked") ∧
      Call.send "developer" nudgeMessage ∈ (mainRun envC3a ({} : StateDict)).calls ∧
      NUDGE_COOLDOWN_SECONDS ≤ envC3b.now - envC3a.now := by
  refine ⟨by decide, ?_, ?_⟩
  · exact ((watchdog_nudge_cooldown.1 envC3a {} "developer" (Or.inl rfl)
      (Or.inl (by decide))).1).mpr (by decide)
  · have m1 : Call.send "developer" nudgeMessage ∈
        (mainRun envC3a (runAll ({} : StateDict) [])).calls := by decide
    have m2 : Call.send "developer" nudgeMessage ∈
        (mainRun envC3b (runAll (mainRun envC3a (runAll ({} : StateDict) [])).saved [])).calls := by
      decide
    exact watchdog_nudge_cooldown.2 {} [] envC3a [] envC3b "developer" m1 m2
/-- C4: in a run that discovers a work item `w`, the developer is
notified iff `w.url` differs from the persisted `last_work_url` or at
least 1h has elapsed since the persisted `last_work_nudge_ts`;
`last_work_url` is always updated to `w.url`, while `last_work_nudge_ts`
becomes `now` exactly when the notification is sent. -/
theorem watchdog_work_notify (env : Env) (s : StateDict) (w : WorkItem)
    (hidle : devStatus env = "idle") (hdue : intOr s.next_scan_ts ≤ env.now)
    (hw : env.findWork = some w) :
    (Call.send "developer" (workMessage w) ∈ (mainRun env s).calls ↔
      (w.url ≠ strOr s.last_work_url ∨
        REPEAT_SAME_WORK_COOLDOWN_SECONDS ≤ env.now - intOr s.last_work_nudge_ts)) ∧
    (mainRun env s).saved.last_work_url = some w.url ∧
    (mainRun env s).saved.last_work_nudge_ts =
      (if w.url ≠ strOr s.last_work_url ∨
          REPEAT_SAME_WORK_COOLDOWN_SECONDS ≤ env.now - intOr s.last_work_nudge_ts
       then some env.now else s.last_work_nudge_ts) := by
  have hpres := nudgePhase_preserves_scan_fields env s (devStatus env) (qaStatus env)
  have hcond : (w.url ≠ strOr (nudgePhase env s (devStatus env) (qaStatus env)).1.last_work_url ∨
      REPEAT_SAME_WORK_COOLDOWN_SECONDS ≤
        env.now - intOr (nudgePhase env s (devStatus env) (qaStatus env)).1.last_work_nudge_ts) ↔
      (w.url ≠ strOr s.last_work_url ∨
        REPEAT_SAME_WORK_COOLDOWN_SECONDS ≤ env.now - intOr s.last_work_nudge_ts) := by
    rw [hpres.2.2.1, hpres.2.2.2]
  by_cases hn : w.url ≠ strOr s.last_work_url ∨
      REPEAT_SAME_WORK_COOLDOWN_SECONDS ≤ env.now - intOr s.last_work_nudge_ts
  · have hsc := scanPhase_workNotify env (nudgePhase env s (devStatus env) (qaStatus env)).1
      (devStatus env) (intOr s.next_scan_ts) (intOr s.backoff_steps) w ⟨hidle, hdue⟩ hw
      (hcond.mpr hn)
    refine ⟨⟨fun _ => hn, fun _ => ?_⟩, ?_, ?_⟩
    · rw [mainRun_calls]
      simp only [List.mem_append, List.mem_singleton, List.mem_map]
      refine Or.inl (Or.inl (Or.inr ?_))
      rw [hsc]
      simp
    · rw [mainRun_saved, hsc]
    · rw [mainRun_saved, hsc, if_pos hn]
  · have hsc := scanPhase_workSkip env (nudgePhase env s (devStatus env) (qaStatus env)).1
      (devStatus env) (intOr s.next_scan_ts) (intOr s.backoff_steps) w ⟨hidle, hdue⟩ hw
      (fun hcontra => hn (hcond.mp hcontra))
    refine ⟨⟨fun hmem => ?_, fun hcnd => absurd hcnd hn⟩, ?_, ?_⟩
    · exfalso
      rw [mainRun_calls] at hmem
      simp only [List.mem_append, List.mem_singleton, List.mem_map] at hmem
      rcases hmem with ((((h | h) | h) | h) | h)
      · rw [mem_startPhase_calls] at h
        rcases h with ⟨hc, _⟩ | ⟨hc, _⟩ <;> exact absurd hc (by simp)
      · rw [mem_nudgePhase_calls] at h
        rcases h with ⟨hf, _⟩ | ⟨_, hc⟩
        · rw [hidle] at hf
          rcases hf.1 with hx | hx <;> exact absurd hx (by decide)
        · simp only [Call.send.injEq] at hc
          exact absurd hc.1 (by decide)
      · rw [hsc] at h
        simp at h
      · exact absurd h (by simp)
      · rcases h with ⟨l, _, hl⟩
        exact absurd hl (by simp)
    · rw [mainRun_saved, hsc]
    · rw [mainRun_saved, hsc, if_neg hn]
      exact hpres.2.2.2

/-- Witness for C4: on an empty state the discovered item's URL differs
from the (empty) `last_work_url`, so the developer is notified and both
work fields are stamped. -/
theorem watchdog_work_notify_witness :
    devStatus envC4w = "idle" ∧
      Call.send "developer" (workMessage wItemA) ∈ (mainRun envC4w ({} : StateDict)).calls ∧
      (mainRun envC4w ({} : StateDict)).saved.last_work_url = some wItemA.url ∧
      (mainRun envC4w ({} : StateDict)).saved.last_work_nudge_ts = some envC4w.now := by
  have h := watchdog_work_notify envC4w {} wItemA (by decide) (by decide) rfl
  refine ⟨by decide, h.1.mpr (by decide), h.2.1, ?_⟩
  rw [h.2.2, if_pos (by decide)]
theorem startPhase_all_effect (env : Env) (dev qa : String) :
    ((startPhase env dev qa).2.all Call.isEffect) = true := by
  rw [List.all_eq_true]
  intro c hc
  rcases (mem_startPhase_calls env dev qa c).mp hc with ⟨hc, _⟩ | ⟨hc, _⟩ <;>
    subst hc <;> rfl

theorem nudgePhase_all_effect (env : Env) (s : StateDict) (dev qa : String) :
    ((nudgePhase env s dev qa).2.2.all Call.isEffect) = true := by
  rw [List.all_eq_true]
  intro c hc
  rcases (mem_nudgePhase_calls env s dev qa c).mp hc with ⟨_, hc⟩ | ⟨_, hc⟩ <;>
    subst hc <;> rfl

theorem scanPhase_all_effect (env : Env) (st : StateDict) (dev : String) (nst b : Int) :
    ((scanPhase env st dev nst b).2.2.1.all Call.isEffect) = true := by
  rw [List.all_eq_true]
  intro c hc
  rcases mem_scanPhase_calls env st dev nst b c hc with hc | ⟨w, _, hc⟩ <;>
    subst hc <;> rfl

/-- C7: every run's call trace consists of effect calls (starts, sends,
work discovery), then exactly one state save of the final state, then the
printed report; the report is a status line and an action line, plus a
backoff line exactly when the developer reports `idle`. -/
theorem watchdog_persist_then_report (env : Env) (s : StateDict) :
    (∃ pre, (mainRun env s).calls =
        pre ++ [Call.saveState (mainRun env s).saved] ++
          (mainRun env s).report.map Call.printLine ∧
        pre.all Call.isEffect = true) ∧
    (∃ w acts, (mainRun env s).report =
      (if devStatus env = "idle" then
        [statusLine (devStatus env) (qaStatus env) w, actionLine acts,
         backoffLine (mainRun env s).saved env.now]
       else
        [statusLine (devStatus env) (qaStatus env) w, actionLine acts])) := by
  constructor
  · refine ⟨(startPhase env (devStatus env) (qaStatus env)).2 ++
      (nudgePhase env s (devStatus env) (qaStatus env)).2.2 ++
      (scanPhase env (nudgePhase env s (devStatus env) (qaStatus env)).1 (devStatus env)
        (intOr s.next_scan_ts) (intOr s.backoff_steps)).2.2.1, mainRun_calls env s, ?_⟩
    simp [List.all_append, startPhase_all_effect, nudgePhase_all_effect, scanPhase_all_effect]
  · exact ⟨(scanPhase env (nudgePhase env s (devStatus env) (qaStatus env)).1 (devStatus env)
        (intOr s.next_scan_ts) (intOr s.backoff_steps)).2.2.2,
      (startPhase env (devStatus env) (qaStatus env)).1 ++
        (nudgePhase env s (devStatus env) (qaStatus env)).2.1 ++
        (scanPhase env (nudgePhase env s (devStatus env) (qaStatus env)).1 (devStatus env)
          (intOr s.next_scan_ts) (intOr s.backoff_steps)).2.1,
      mainRun_report env s⟩

/-- C10: an agent whose reported status is unrecognized (not `stopped`,
`blocked` or `error`, and for the developer also not `idle`) — including
the default `unknown` used when the activity output has no entry for the
agent — triggers no start, no send, no work scan, and its persisted
nudge timestamp is written back unchanged. -/
theorem watchdog_unrecognized_frame (env : Env) (s : StateDict) :
    (¬(qaStatus env = "stopped" ∨ qaStatus env = "blocked" ∨ qaStatus env = "error") →
      Call.start "qa" ∉ (mainRun env s).calls ∧
        (∀ m, Call.send "qa" m ∉ (mainRun env s).calls) ∧
        (mainRun env s).saved.last_nudge_qa_ts = s.last_nudge_qa_ts) ∧
    (¬(devStatus env = "stopped" ∨ devStatus env = "blocked" ∨ devStatus env = "error" ∨
        devStatus env = "idle") →
      Call.start "developer" ∉ (mainRun env s).calls ∧
        (∀ m, Call.send "developer" m ∉ (mainRun env s).calls) ∧
        Call.findWork ∉ (mainRun env s).calls ∧
        (mainRun env s).saved.last_nudge_developer_ts = s.last_nudge_developer_ts) ∧
    ((∀ p ∈ get_activity env.activityLines, p.1 ≠ "developer") →
      devStatus env = "unknown") ∧
    ((∀ p ∈ get_activity env.activityLines, p.1 ≠ "qa") → qaStatus env = "unknown") := by
  refine ⟨fun hq => ⟨?_, ?_, ?_⟩, fun hd => ⟨?_, ?_, ?_, ?_⟩, ?_, ?_⟩
  · exact fun hmem => hq (Or.inl ((start_mem_mainRun env s "qa" (Or.inr rfl)).mp hmem))
  · intro m hmem
    rw [mainRun_calls] at hmem
    simp only [List.mem_append, List.mem_singleton, List.mem_map] at hmem
    rcases hmem with ((((h | h) | h) | h) | h)
    · rw [mem_startPhase_calls] at h
      rcases h with ⟨hc, _⟩ | ⟨hc, _⟩ <;> exact absurd hc (by simp)
    · rw [mem_nudgePhase_calls] at h
      rcases h with ⟨_, hc⟩ | ⟨hf, _⟩
      · simp only [Call.send.injEq] at hc
        exact absurd hc.1 (by decide)
      · exact hq (Or.inr hf.1)
    · rcases mem_scanPhase_calls env _ _ _ _ _ h with h | ⟨w, _, h⟩
      · exact absurd h (by simp)
      · simp only [Call.send.injEq] at h
        exact absurd h.1 (by decide)
    · exact absurd h (by simp)
    · rcases h with ⟨l, _, hl⟩
      exact absurd hl (by simp)
  · rw [(mainRun_saved_nudge_ts env s).2, if_neg (fun hf => hq (Or.inr hf.1))]
  · exact fun hmem => hd (Or.inl ((start_mem_mainRun env s "developer" (Or.inl rfl)).mp hmem))
  · intro m hmem
    have hnidle : ¬(devStatus env = "idle" ∧ intOr s.next_scan_ts ≤ env.now) :=
      fun hc => hd (Or.inr (Or.inr (Or.inr hc.1)))
    rw [mainRun_calls] at hmem
    simp only [List.mem_append, List.mem_singleton, List.mem_map] at hmem
    rcases hmem with ((((h | h) | h) | h) | h)
    · rw [mem_startPhase_calls] at h
      rcases h with ⟨hc, _⟩ | ⟨hc, _⟩ <;> exact absurd hc (by simp)
    · rw [mem_nudgePhase_calls] at h
      rcases h with ⟨hf, _⟩ | ⟨_, hc⟩
      · exact hd (hf.1.elim (fun hx => Or.inr (Or.inl hx))
          (fun hx => Or.inr (Or.inr (Or.inl hx))))
      · simp only [Call.send.injEq] at hc
        exact absurd hc.1 (by decide)
    · rw [scanPhase_skip env _ _ _ _ hnidle] at h
      simp at h
    · exact absurd h (by simp)
    · rcases h with ⟨l, _, hl⟩
      exact absurd hl (by simp)
  · intro hmem
    exact (fun hc => hd (Or.inr (Or.inr (Or.inr hc.1))))
      ((findWork_mem_mainRun env s).mp hmem)
  · rw [(mainRun_saved_nudge_ts env s).1,
      if_neg (fun hf => hd (Or.inr (hf.1.elim Or.inl (fun hx => Or.inr (Or.inl hx)))))]
  · exact fun h => dictGet_default _ _ _ h
  · exact fun h => dictGet_default _ _ _ h
/-- Witness for C10: with the developer reporting `warming-up` and no
activity line for qa (hence `unknown`), the run scans nothing and leaves
both nudge timestamps unchanged. -/
theorem watchdog_unrecognized_frame_witness :
    ¬(devStatus envC10w = "stopped" ∨ devStatus envC10w = "blocked" ∨
        devStatus envC10w = "error" ∨ devStatus envC10w = "idle") ∧
      qaStatus envC10w = "unknown" ∧
      Call.findWork ∉ (mainRun envC10w sC10w).calls ∧
      (mainRun envC10w sC10w).saved.last_nudge_developer_ts = sC10w.last_nudge_developer_ts ∧
      (mainRun envC10w sC10w).saved.last_nudge_qa_ts = sC10w.last_nudge_qa_ts := by
  have h := watchdog_unrecognized_frame envC10w sC10w
  refine ⟨by decide, ?_, ?_, ?_, ?_⟩
  · exact h.2.2.2 (by decide)
  · exact (h.2.1 (by decide)).2.2.1
  · exact (h.2.1 (by decide)).2.2.2
  · exact (h.1 (by decide)).2.2
